import Mathlib

/-!
Verification of `scripts/assemble.py`, the partition-aware image assembler.

The embedding models:
- partition offset/size tables as association lists `List (String × Nat)`
  (Python dict membership and indexing become `List.lookup`);
- the output artifact as its byte content, a `List Nat` (the write cursor is
  the list's length, matching `ofd.tell()` on a file opened in append mode);
- each distinct `raise Exception(...)` site as a constructor of `AsmError`;
- the filesystem state at the output path as `FileState`, with `os.unlink`
  modelled by `unlinkOp` (POSIX semantics: unlinking a missing file fails
  with `ENOENT`; other failures, e.g. permissions, are injected through an
  errno oracle).
-/

namespace Assemble

/-- `same_keys(a, b)`: both loops of the Python function — every key of `a`
is present in `b` and every key of `b` is present in `a`. -/
def same_keys (a b : List (String × Nat)) : Bool :=
  a.all (fun p => (b.lookup p.1).isSome) && b.all (fun p => (a.lookup p.1).isSome)

/-- One constructor per distinct `raise` site of the source (plus the
implicit `KeyError` of a dict lookup, and `OSError` re-raised in `__init__`). -/
inductive AsmError where
  | consistencyError
  | missingPartitionError (name : String)
  | unknownPartitionError (name : String)
  | outOfOrderError
  | oversizedImageError
  | ioError (errno : Nat)
deriving Repr, DecidableEq

/-- The validated pair of tables stored by `find_slots` in
`self.offsets` / `self.sizes`. -/
structure PartitionMap where
  offsets : List (String × Nat)
  sizes : List (String × Nat)
deriving Repr, DecidableEq

/-- The validation part of `Assembly.find_slots` (lines 67-81), acting on the
two tables `offsets` and `sizes`; building those tables from the devicetree
(lines 56-65) is the external partition-description provider and is taken as
input here. -/
def find_slots (offsets sizes : List (String × Nat)) (is_secondary : Bool) :
    Except AsmError PartitionMap :=
  if !same_keys offsets sizes then
    .error .consistencyError
  else if (offsets.lookup "mcuboot").isNone then
    .error (.missingPartitionError "mcuboot")
  else if (offsets.lookup "image-0").isNone then
    .error (.missingPartitionError "image-0")
  else if (offsets.lookup "image-1").isNone && is_secondary then
    .error (.missingPartitionError "image-1")
  else
    .ok ⟨offsets, sizes⟩

/-- `Assembly.add_image(source, partition)`. The artifact `out` is the
current content of the output file; `source` is the content of the source
file. Returns the artifact after the call together with the raised error,
if any (padding already written when the error is raised is kept, exactly as
the file writes of the source persist past the `raise`). `pos = ofd.tell()`
is `out.length`; `self.offsets[partition]` is looked up first (the `print`
on line 86 already indexes it, so a missing key raises before any check). -/
def add_image (m : PartitionMap) (out : List Nat) (source : List Nat)
    (partition : String) : List Nat × Option AsmError :=
  match m.offsets.lookup partition with
  | none => (out, some (.unknownPartitionError partition))
  | some off =>
    if out.length > off then
      (out, some .outOfOrderError)
    else
      let padded := out ++ List.replicate (off - out.length) 255
      match m.sizes.lookup partition with
      | none => (padded, some (.unknownPartitionError partition))
      | some sz =>
        if source.length > sz then
          (padded, some .oversizedImageError)
        else
          (padded ++ source, none)

/-- State of the filesystem at the output path. -/
inductive FileState where
  | absent
  | present (content : List Nat)
deriving Repr, DecidableEq

/-- `errno.ENOENT`. -/
def ENOENT : Nat := 2

/-- POSIX `os.unlink` on the output path: returns the new file state and the
errno of the raised `OSError`, if any. Unlinking a missing file fails with
`ENOENT`; for a present file, `failErrno` injects an environment failure
(e.g. `EACCES`), in which case the file remains. -/
def unlinkOp (file : FileState) (failErrno : Option Nat) :
    FileState × Option Nat :=
  match file with
  | .absent => (.absent, some ENOENT)
  | .present c =>
    match failErrno with
    | some e => (.present c, some e)
    | none => (.absent, none)

/-- `Assembly.__init__` (lines 46-53): first `self.find_slots(...)`, then
`os.unlink(output)` inside a `try` that swallows `ENOENT` and re-raises any
other `OSError`. Returns the constructed map (or the error) together with
the file state at the output path afterwards. -/
def Assembly_init (offs szs : List (String × Nat)) (sec : Bool)
    (file : FileState) (failErrno : Option Nat) :
    Except AsmError PartitionMap × FileState :=
  match find_slots offs szs sec with
  | .error e => (.error e, file)
  | .ok m =>
    let r := unlinkOp file failErrno
    match r.2 with
    | none => (.ok m, r.1)
    | some e => if e ≠ ENOENT then (.error (.ioError e), r.1) else (.ok m, r.1)

/-- One iteration of `main`'s sequence of `add_image` calls: a raised
exception aborts the run, later calls do not happen. -/
def run_step (m : PartitionMap) (acc : List Nat × Option AsmError)
    (img : List Nat × String) : List Nat × Option AsmError :=
  match acc.2 with
  | some _ => acc
  | none => add_image m acc.1 img.1 img.2

/-- A full run of `main`'s assembly phase: construct the `Assembly` (which
validates the map and unlinks the output path), then perform the sequence of
`add_image` calls, appending to whatever the output path holds after
initialization (`open(..., 'ab')`). Returns the outcome and the final file
state at the output path. -/
def full_run (offs szs : List (String × Nat)) (sec : Bool)
    (pre : FileState) (failErrno : Option Nat)
    (images : List (List Nat × String)) :
    Except AsmError Unit × FileState :=
  match Assembly_init offs szs sec pre failErrno with
  | (.error e, f) => (.error e, f)
  | (.ok m, f) =>
    let init0 : List Nat := match f with | .absent => [] | .present c => c
    let r := images.foldl (run_step m) (init0, none)
    (match r.2 with | some e => .error e | none => .ok (), .present r.1)

/-! ### Helper lemmas -/

/-- A successful `add_image` call implies the cursor was at or below the
target offset, the source fits, and the result is padding followed by the
source bytes. -/
theorem add_image_ok_elim {m : PartitionMap} {out src : List Nat} {p : String}
    {off sz : Nat} {st : List Nat}
    (hoff : m.offsets.lookup p = some off) (hsz : m.sizes.lookup p = some sz)
    (h : add_image m out src p = (st, none)) :
    out.length ≤ off ∧ src.length ≤ sz ∧
      st = (out ++ List.replicate (off - out.length) 255) ++ src := by
  simp only [add_image, hoff, hsz] at h
  by_cases hgt : out.length > off
  · simp [hgt] at h
  · rw [if_neg hgt] at h
    by_cases hbig : src.length > sz
    · simp [hbig] at h
    · rw [if_neg hbig] at h
      injection h with h1 h2
      exact ⟨Nat.not_lt.mp hgt, Nat.not_lt.mp hbig, h1.symm⟩

/-- Length of a successful `add_image` result: target offset plus source
length. -/
theorem add_image_ok_length {out src : List Nat} {off : Nat}
    (hle : out.length ≤ off) :
    ((out ++ List.replicate (off - out.length) 255) ++ src).length =
      off + src.length := by
  simp [List.length_append, List.length_replicate]
  omega

/-! ### C4, C5, C8, C10 — `add_image` behavior -/

/-- C4: whenever the current write cursor (the artifact's length) is
strictly greater than the requested partition's target offset, `add_image`
fails with `OutOfOrderError` and the artifact is unchanged. -/
theorem add_image_out_of_order (m : PartitionMap) (out src : List Nat)
    (p : String) (off : Nat) (hoff : m.offsets.lookup p = some off)
    (h : off < out.length) :
    add_image m out src p = (out, some AsmError.outOfOrderError) := by
  simp [add_image, hoff, h]

/-- Witness for C4. -/
theorem add_image_out_of_order_witness :
    add_image ⟨[("p", 1)], [("p", 1)]⟩ [0, 0] [7] "p" =
      ([0, 0], some AsmError.outOfOrderError) :=
  add_image_out_of_order ⟨[("p", 1)], [("p", 1)]⟩ [0, 0] [7] "p" 1 (by decide)
    (by decide)

/-- C5: when the source is strictly larger than the partition's capacity,
`add_image` fails with `OversizedImageError`; none of the source's bytes are
written, but the `0xFF` padding up to the target offset has already been
written (it precedes the size check), so the artifact's length after the
failing call is the target offset. -/
theorem add_image_oversized (m : PartitionMap) (out src : List Nat)
    (p : String) (off sz : Nat) (hoff : m.offsets.lookup p = some off)
    (hsz : m.sizes.lookup p = some sz) (hpos : out.length ≤ off)
    (hbig : sz < src.length) :
    add_image m out src p =
      (out ++ List.replicate (off - out.length) 255,
        some AsmError.oversizedImageError) ∧
    (add_image m out src p).1.length = off := by
  have hstep : add_image m out src p =
      (out ++ List.replicate (off - out.length) 255,
        some AsmError.oversizedImageError) := by
    simp [add_image, hoff, hsz, Nat.not_lt.mpr hpos, hbig]
  refine ⟨hstep, ?_⟩
  rw [hstep]
  simp [List.length_append, List.length_replicate]
  omega

/-- Witness for C5. -/
theorem add_image_oversized_witness :
    add_image ⟨[("p", 3)], [("p", 1)]⟩ [9] [7, 7] "p" =
      ([9, 255, 255], some AsmError.oversizedImageError) ∧
    (add_image ⟨[("p", 3)], [("p", 1)]⟩ [9] [7, 7] "p").1.length = 3 := by
  have h := add_image_oversized ⟨[("p", 3)], [("p", 1)]⟩ [9] [7, 7] "p" 3 1
    (by decide) (by decide) (by decide) (by decide)
  exact ⟨by rw [h.1]; decide, h.2⟩

/-- C10: when the source's length equals the partition's capacity exactly,
`add_image` succeeds (the size check is strict greater-than) and appends all
the source bytes after the padding. -/
theorem add_image_exact_fit (m : PartitionMap) (out src : List Nat)
    (p : String) (off sz : Nat) (hoff : m.offsets.lookup p = some off)
    (hsz : m.sizes.lookup p = some sz) (hpos : out.length ≤ off)
    (hfit : src.length = sz) :
    add_image m out src p =
      ((out ++ List.replicate (off - out.length) 255) ++ src, none) := by
  simp [add_image, hoff, hsz, Nat.not_lt.mpr hpos, Nat.not_lt.mpr hfit.le]

/-- Witness for C10. -/
theorem add_image_exact_fit_witness :
    add_image ⟨[("p", 2)], [("p", 2)]⟩ [9] [7, 8] "p" =
      ([9, 255, 7, 8], none) := by
  have h := add_image_exact_fit ⟨[("p", 2)], [("p", 2)]⟩ [9] [7, 8] "p" 2 2
    (by decide) (by decide) (by decide) (by decide)
  rw [h]; decide

/-- C8: every `add_image` call, successful or failing, only appends: the
prior artifact is a prefix of the result, so the write cursor (the
artifact's length) is monotonically non-decreasing and no write targets an
offset below the cursor. -/
theorem add_image_cursor_monotone (m : PartitionMap) (out src : List Nat)
    (p : String) :
    ∃ t, (add_image m out src p).1 = out ++ t ∧
      out.length ≤ (add_image m out src p).1.length := by
  have key : ∃ t, (add_image m out src p).1 = out ++ t := by
    match hoff : m.offsets.lookup p with
    | none => exact ⟨[], by simp [add_image, hoff]⟩
    | some off =>
      by_cases hgt : out.length > off
      · exact ⟨[], by simp [add_image, hoff, hgt]⟩
      · match hsz : m.sizes.lookup p with
        | none =>
          exact ⟨List.replicate (off - out.length) 255,
            by simp [add_image, hoff, hgt, hsz]⟩
        | some sz =>
          by_cases hbig : src.length > sz
          · exact ⟨List.replicate (off - out.length) 255,
              by simp [add_image, hoff, hgt, hsz, hbig]⟩
          · exact ⟨List.replicate (off - out.length) 255 ++ src,
              by simp [add_image, hoff, hgt, hsz, hbig, List.append_assoc]⟩
  obtain ⟨t, ht⟩ := key
  exact ⟨t, ht, by rw [ht]; simp [List.length_append]⟩

/-! ### Key-set lemmas for `same_keys` -/

/-- A pair that appears in the list makes the lookup of its key succeed. -/
theorem lookup_isSome_of_mem {a : List (String × Nat)} {p : String × Nat}
    (h : p ∈ a) : (a.lookup p.1).isSome := by
  rw [List.lookup_isSome_iff]
  exact ⟨p, h, by simp⟩

/-- When the two tables answer lookups on the same key set, `same_keys`
holds. -/
theorem same_keys_of_iff {a b : List (String × Nat)}
    (h : ∀ k, (a.lookup k).isSome ↔ (b.lookup k).isSome) :
    same_keys a b = true := by
  simp only [same_keys, Bool.and_eq_true, List.all_eq_true]
  exact ⟨fun p hp => (h p.1).mp (lookup_isSome_of_mem hp),
    fun p hp => (h p.1).mpr (lookup_isSome_of_mem hp)⟩

/-- A key present in one table but absent from the other falsifies
`same_keys`. -/
theorem same_keys_eq_false {a b : List (String × Nat)} {k : String}
    (h : ((a.lookup k).isSome ∧ b.lookup k = none) ∨
         ((b.lookup k).isSome ∧ a.lookup k = none)) :
    same_keys a b = false := by
  cases hsk : same_keys a b with
  | false => rfl
  | true =>
    exfalso
    simp only [same_keys, Bool.and_eq_true, List.all_eq_true] at hsk
    rcases h with ⟨hs, hn⟩ | ⟨hs, hn⟩
    · rw [List.lookup_isSome_iff] at hs
      obtain ⟨p, hp, hk⟩ := hs
      have hb := hsk.1 p hp
      have hkp : k = p.1 := by simpa using hk
      rw [← hkp, hn] at hb
      simp at hb
    · rw [List.lookup_isSome_iff] at hs
      obtain ⟨p, hp, hk⟩ := hs
      have hb := hsk.2 p hp
      have hkp : k = p.1 := by simpa using hk
      rw [← hkp, hn] at hb
      simp at hb

/-! ### C2, C3, C7 — partition-map validation -/

/-- C2: whenever some key is present in one of the two input tables but not
the other (in either direction), `find_slots` fails with the consistency
error and returns no `PartitionMap`. -/
theorem find_slots_key_mismatch (a b : List (String × Nat)) (sec : Bool)
    (k : String)
    (h : ((a.lookup k).isSome ∧ b.lookup k = none) ∨
         ((b.lookup k).isSome ∧ a.lookup k = none)) :
    find_slots a b sec = .error AsmError.consistencyError := by
  have hsk := same_keys_eq_false h
  simp [find_slots, hsk]

/-- Witness for C2. -/
theorem find_slots_key_mismatch_witness :
    find_slots [("mcuboot", 0)] [] false =
      .error AsmError.consistencyError :=
  find_slots_key_mismatch [("mcuboot", 0)] [] false "mcuboot"
    (Or.inl ⟨by decide, by decide⟩)

/-- C3: with identical key sets, `find_slots` fails with a missing-partition
error when `mcuboot` is absent, when `image-0` is absent, or when the
secondary image is required and `image-1` is absent; with `is_secondary`
false, absence of `image-1` alone does not cause failure. -/
theorem find_slots_missing_mandatory (a b : List (String × Nat)) (sec : Bool)
    (hkeys : ∀ k, (a.lookup k).isSome ↔ (b.lookup k).isSome) :
    ((a.lookup "mcuboot" = none ∨ a.lookup "image-0" = none ∨
        (sec = true ∧ a.lookup "image-1" = none)) →
      ∃ n, find_slots a b sec = .error (AsmError.missingPartitionError n)) ∧
    (sec = false → (a.lookup "mcuboot").isSome → (a.lookup "image-0").isSome →
      a.lookup "image-1" = none → find_slots a b sec = .ok ⟨a, b⟩) := by
  have hsk := same_keys_of_iff hkeys
  constructor
  · intro h
    by_cases h1 : a.lookup "mcuboot" = none
    · exact ⟨"mcuboot", by simp [find_slots, hsk, h1]⟩
    · by_cases h2 : a.lookup "image-0" = none
      · exact ⟨"image-0", by simp [find_slots, hsk, h1, h2]⟩
      · rcases h with h | h | ⟨hsec, h3⟩
        · exact absurd h h1
        · exact absurd h h2
        · exact ⟨"image-1", by simp [find_slots, hsk, h1, h2, h3, hsec]⟩
  · intro hsec hm h0 h1
    obtain ⟨vm, hvm⟩ := Option.isSome_iff_exists.mp hm
    obtain ⟨v0, hv0⟩ := Option.isSome_iff_exists.mp h0
    simp [find_slots, hsk, hsec, hvm, hv0]

/-- Witness for C3: a table without `mcuboot` is rejected; a table missing
only `image-1` passes when no secondary image is requested. -/
theorem find_slots_missing_mandatory_witness :
    (∃ n, find_slots [("x", 0)] [("x", 0)] false =
        .error (AsmError.missingPartitionError n)) ∧
    find_slots [("mcuboot", 0), ("image-0", 1)]
        [("mcuboot", 0), ("image-0", 1)] false =
      .ok ⟨[("mcuboot", 0), ("image-0", 1)], [("mcuboot", 0), ("image-0", 1)]⟩ :=
  ⟨(find_slots_missing_mandatory [("x", 0)] [("x", 0)] false
      (fun _ => Iff.rfl)).1 (Or.inl (by decide)),
    (find_slots_missing_mandatory [("mcuboot", 0), ("image-0", 1)]
      [("mcuboot", 0), ("image-0", 1)] false (fun _ => Iff.rfl)).2 rfl
      (by decide) (by decide) (by decide)⟩

/-- C7: with identical key sets and all mandatory partitions present,
`find_slots` succeeds and the returned `PartitionMap` holds exactly the two
input tables, unchanged (the embedding is pure, so the inputs are not
mutated and there are no other effects). -/
theorem find_slots_valid (a b : List (String × Nat)) (sec : Bool)
    (hkeys : ∀ k, (a.lookup k).isSome ↔ (b.lookup k).isSome)
    (hm : (a.lookup "mcuboot").isSome)
    (h0 : (a.lookup "image-0").isSome)
    (h1 : sec = true → (a.lookup "image-1").isSome) :
    find_slots a b sec = .ok ⟨a, b⟩ := by
  have hsk := same_keys_of_iff hkeys
  obtain ⟨vm, hvm⟩ := Option.isSome_iff_exists.mp hm
  obtain ⟨v0, hv0⟩ := Option.isSome_iff_exists.mp h0
  cases sec with
  | false => simp [find_slots, hsk, hvm, hv0]
  | true =>
    obtain ⟨v1, hv1⟩ := Option.isSome_iff_exists.mp (h1 rfl)
    simp [find_slots, hsk, hvm, hv0, hv1]

/-- Witness for C7. -/
theorem find_slots_valid_witness :
    find_slots [("mcuboot", 1), ("image-0", 2), ("image-1", 3)]
        [("mcuboot", 1), ("image-0", 2), ("image-1", 3)] true =
      .ok ⟨[("mcuboot", 1), ("image-0", 2), ("image-1", 3)],
        [("mcuboot", 1), ("image-0", 2), ("image-1", 3)]⟩ :=
  find_slots_valid [("mcuboot", 1), ("image-0", 2), ("image-1", 3)]
    [("mcuboot", 1), ("image-0", 2), ("image-1", 3)] true
    (fun _ => Iff.rfl) (by decide) (by decide) (fun _ => by decide)

/-! ### C6, C9 — initialization and determinism -/

/-- With a valid partition map and no environment failure injected, the
construction succeeds and leaves the output path absent, regardless of what
file was there before. -/
theorem assembly_init_pre_irrelevant
    (offs szs : List (String × Nat)) (sec : Bool) (m : PartitionMap)
    (hvalid : find_slots offs szs sec = .ok m) (pre : FileState) :
    Assembly_init offs szs sec pre none = (.ok m, FileState.absent) := by
  cases pre with
  | absent => simp [Assembly_init, hvalid, unlinkOp, ENOENT]
  | present c => simp [Assembly_init, hvalid, unlinkOp]

/-- C6 counterexample: removing the pre-existing output file is NOT the
first action of `Assembly.__init__` — `self.find_slots` runs first (line 47,
before the `os.unlink` of line 49), so when validation fails, a
pre-existing, perfectly removable file at the output path is left in place.
Here the tables are inconsistent, no unlink failure is injected, and yet the
file `[1, 2, 3]` survives the construction. -/
theorem assembly_init_not_removal_first :
    Assembly_init [("a", 0)] [] false (FileState.present [1, 2, 3]) none =
      (.error AsmError.consistencyError, FileState.present [1, 2, 3]) := rfl

/-- C6 (amended): after the partition map validates, the next action of
`Assembly.__init__` is to discard any existing file at the output path,
before any write: a missing file is not an error (`ENOENT` is swallowed),
and a removal failure with any other errno propagates as an `IOError`,
leaving the file in place. -/
theorem assembly_init_unlink_behavior
    (offs szs : List (String × Nat)) (sec : Bool) (m : PartitionMap)
    (hvalid : find_slots offs szs sec = .ok m) :
    Assembly_init offs szs sec FileState.absent none =
      (.ok m, FileState.absent) ∧
    (∀ c, Assembly_init offs szs sec (FileState.present c) none =
      (.ok m, FileState.absent)) ∧
    (∀ c e, e ≠ ENOENT →
      Assembly_init offs szs sec (FileState.present c) (some e) =
        (.error (AsmError.ioError e), FileState.present c)) := by
  refine ⟨assembly_init_pre_irrelevant offs szs sec m hvalid _,
    fun c => assembly_init_pre_irrelevant offs szs sec m hvalid _,
    fun c e he => ?_⟩
  simp [Assembly_init, hvalid, unlinkOp, he]

/-- Witness for the amended C6. -/
theorem assembly_init_unlink_behavior_witness :
    Assembly_init [("mcuboot", 0), ("image-0", 1)]
        [("mcuboot", 0), ("image-0", 1)] false
        (FileState.present [9]) (some 13) =
      (.error (AsmError.ioError 13), FileState.present [9]) :=
  (assembly_init_unlink_behavior [("mcuboot", 0), ("image-0", 1)]
    [("mcuboot", 0), ("image-0", 1)] false
    ⟨[("mcuboot", 0), ("image-0", 1)], [("mcuboot", 0), ("image-0", 1)]⟩
    rfl).2.2 [9] 13 (by decide)

/-- C9: for a fixed valid partition map and fixed source binaries, a full
assembly run writes the same bytes to the output path no matter what file
existed there beforehand — the pre-existing file is always discarded
first. -/
theorem full_run_deterministic
    (offs szs : List (String × Nat)) (sec : Bool) (m : PartitionMap)
    (hvalid : find_slots offs szs sec = .ok m)
    (images : List (List Nat × String)) (pre1 pre2 : FileState) :
    full_run offs szs sec pre1 none images =
      full_run offs szs sec pre2 none images := by
  unfold full_run
  rw [assembly_init_pre_irrelevant offs szs sec m hvalid pre1,
    assembly_init_pre_irrelevant offs szs sec m hvalid pre2]

/-- Witness for C9: same run against a stale three-byte file and against a
missing file. -/
theorem full_run_deterministic_witness :
    full_run [("mcuboot", 0), ("image-0", 1)] [("mcuboot", 1), ("image-0", 1)]
        false (FileState.present [1, 2, 3]) none [([5], "mcuboot")] =
      full_run [("mcuboot", 0), ("image-0", 1)] [("mcuboot", 1), ("image-0", 1)]
        false FileState.absent none [([5], "mcuboot")] :=
  full_run_deterministic [("mcuboot", 0), ("image-0", 1)]
    [("mcuboot", 1), ("image-0", 1)] false
    ⟨[("mcuboot", 0), ("image-0", 1)], [("mcuboot", 1), ("image-0", 1)]⟩
    rfl [([5], "mcuboot")] (FileState.present [1, 2, 3]) FileState.absent

/-! ### C1 — offset correctness of three successful placements -/

/-- C1: over a validated partition map, after three successful `add_image`
calls for partitions at strictly increasing offsets `o1 < o2 < o3` with
capacities `s1, s2, s3` and sources of lengths `l1 ≤ s1`, `l2 ≤ s2`,
`l3 ≤ s3`, the output's bytes in `[o1, o1+l1)`, `[o2, o2+l2)`, `[o3, o3+l3)`
equal the respective sources exactly, and every byte in `[o1+l1, o2)` and
`[o2+l2, o3)` is `0xFF`. -/
theorem assembly_offset_correctness
    (offs szs : List (String × Nat)) (sec : Bool) (m : PartitionMap)
    (hvalid : find_slots offs szs sec = .ok m)
    (p1 p2 p3 : String) (o1 o2 o3 s1 s2 s3 : Nat)
    (src1 src2 src3 st1 st2 st3 : List Nat)
    (ho1 : m.offsets.lookup p1 = some o1) (hs1 : m.sizes.lookup p1 = some s1)
    (ho2 : m.offsets.lookup p2 = some o2) (hs2 : m.sizes.lookup p2 = some s2)
    (ho3 : m.offsets.lookup p3 = some o3) (hs3 : m.sizes.lookup p3 = some s3)
    (h12 : o1 < o2) (h23 : o2 < o3)
    (hl1 : src1.length ≤ s1) (hl2 : src2.length ≤ s2) (hl3 : src3.length ≤ s3)
    (h1 : add_image m [] src1 p1 = (st1, none))
    (h2 : add_image m st1 src2 p2 = (st2, none))
    (h3 : add_image m st2 src3 p3 = (st3, none)) :
    (∀ i < src1.length, st3[o1 + i]? = src1[i]?) ∧
    (∀ i < src2.length, st3[o2 + i]? = src2[i]?) ∧
    (∀ i < src3.length, st3[o3 + i]? = src3[i]?) ∧
    (∀ j < o2, o1 + src1.length ≤ j → st3[j]? = some 255) ∧
    (∀ j < o3, o2 + src2.length ≤ j → st3[j]? = some 255) := by
  obtain ⟨-, -, hst1⟩ := add_image_ok_elim ho1 hs1 h1
  obtain ⟨hc2, -, hst2⟩ := add_image_ok_elim ho2 hs2 h2
  obtain ⟨hc3, -, hst3⟩ := add_image_ok_elim ho3 hs3 h3
  simp only [List.nil_append, List.length_nil, Nat.sub_zero] at hst1
  have len1 : st1.length = o1 + src1.length := by
    rw [hst1]; simp [List.length_append, List.length_replicate]
  have len2 : st2.length = o2 + src2.length := by
    rw [hst2]; exact add_image_ok_length hc2
  refine ⟨?_, ?_, ?_, ?_, ?_⟩
  · intro i hi
    have b1 : o1 + i < (st2 ++ List.replicate (o3 - st2.length) 255).length := by
      simp only [List.length_append, List.length_replicate]; omega
    have b2 : o1 + i < st2.length := by omega
    have b3 : o1 + i < (st1 ++ List.replicate (o2 - st1.length) 255).length := by
      simp only [List.length_append, List.length_replicate]; omega
    have b4 : o1 + i < st1.length := by omega
    have b5 : (List.replicate o1 (255 : Nat)).length ≤ o1 + i := by
      simp only [List.length_replicate]; omega
    rw [hst3, List.getElem?_append_left b1, List.getElem?_append_left b2,
      hst2, List.getElem?_append_left b3, List.getElem?_append_left b4,
      hst1, List.getElem?_append_right b5]
    simp only [List.length_replicate, Nat.add_sub_cancel_left]
  · intro i hi
    have b1 : o2 + i < (st2 ++ List.replicate (o3 - st2.length) 255).length := by
      simp only [List.length_append, List.length_replicate]; omega
    have b2 : o2 + i < st2.length := by omega
    have b3 : (st1 ++ List.replicate (o2 - st1.length) 255).length ≤ o2 + i := by
      simp only [List.length_append, List.length_replicate]; omega
    have b4 : (st1 ++ List.replicate (o2 - st1.length) 255).length = o2 := by
      simp only [List.length_append, List.length_replicate]; omega
    rw [hst3, List.getElem?_append_left b1, List.getElem?_append_left b2,
      hst2, List.getElem?_append_right b3, b4]
    simp only [Nat.add_sub_cancel_left]
  · intro i hi
    have b1 : (st2 ++ List.replicate (o3 - st2.length) 255).length ≤ o3 + i := by
      simp only [List.length_append, List.length_replicate]; omega
    have b2 : (st2 ++ List.replicate (o3 - st2.length) 255).length = o3 := by
      simp only [List.length_append, List.length_replicate]; omega
    rw [hst3, List.getElem?_append_right b1, b2]
    simp only [Nat.add_sub_cancel_left]
  · intro j hj hge
    have b1 : j < (st2 ++ List.replicate (o3 - st2.length) 255).length := by
      simp only [List.length_append, List.length_replicate]; omega
    have b2 : j < st2.length := by omega
    have b3 : j < (st1 ++ List.replicate (o2 - st1.length) 255).length := by
      simp only [List.length_append, List.length_replicate]; omega
    have b4 : st1.length ≤ j := by omega
    have b5 : j - st1.length < o2 - st1.length := by omega
    rw [hst3, List.getElem?_append_left b1, List.getElem?_append_left b2,
      hst2, List.getElem?_append_left b3, List.getElem?_append_right b4,
      List.getElem?_replicate_of_lt b5]
  · intro j hj hge
    have b1 : j < (st2 ++ List.replicate (o3 - st2.length) 255).length := by
      simp only [List.length_append, List.length_replicate]; omega
    have b2 : st2.length ≤ j := by omega
    have b3 : j - st2.length < o3 - st2.length := by omega
    rw [hst3, List.getElem?_append_left b1, List.getElem?_append_right b2,
      List.getElem?_replicate_of_lt b3]

/-- Witness for C1: `mcuboot` at offset 1 (source `[10]`), `image-0` at
offset 4 (source `[20, 21]`), `image-1` at offset 7 (source `[30]`); one
byte from each placed region and one byte from each inter-partition gap of
the resulting artifact `[255, 10, 255, 255, 20, 21, 255, 30]`. -/
theorem assembly_offset_correctness_witness :
    ([255, 10, 255, 255, 20, 21, 255, 30] : List Nat)[1]? = some 10 ∧
    ([255, 10, 255, 255, 20, 21, 255, 30] : List Nat)[5]? = some 21 ∧
    ([255, 10, 255, 255, 20, 21, 255, 30] : List Nat)[7]? = some 30 ∧
    ([255, 10, 255, 255, 20, 21, 255, 30] : List Nat)[2]? = some 255 ∧
    ([255, 10, 255, 255, 20, 21, 255, 30] : List Nat)[6]? = some 255 := by
  have H := assembly_offset_correctness
    [("mcuboot", 1), ("image-0", 4), ("image-1", 7)]
    [("mcuboot", 2), ("image-0", 2), ("image-1", 2)] true
    ⟨[("mcuboot", 1), ("image-0", 4), ("image-1", 7)],
      [("mcuboot", 2), ("image-0", 2), ("image-1", 2)]⟩ rfl
    "mcuboot" "image-0" "image-1" 1 4 7 2 2 2 [10] [20, 21] [30]
    [255, 10] [255, 10, 255, 255, 20, 21] [255, 10, 255, 255, 20, 21, 255, 30]
    rfl rfl rfl rfl rfl rfl (by decide) (by decide) (by decide) (by decide)
    (by decide) rfl rfl rfl
  exact ⟨H.1 0 (by decide), H.2.1 1 (by decide), H.2.2.1 0 (by decide),
    H.2.2.2.1 2 (by decide) (by decide), H.2.2.2.2 6 (by decide) (by decide)⟩

end Assemble
